import Mathlib

/-!
Verification of the openclaw-dchat core against its specification.

Shallow embedding of the repository's core modules:

* `src/seen-tracker.ts` — LRU-based dedup tracker (`SeenTracker`);
* `src/wire.ts`         — wire-format codec (`genTopicHash`, `parseNknPayload`,
  `nknToInbound`, session-key extractors);
* `src/types.ts`        — content-type partitions and wire envelope model;
* `src/nkn-bus.ts`      — connection bus (`NknBus.connect` control flow).

JavaScript `Map<string, true>` iteration order is insertion order, so the
tracker's map is embedded as a duplicate-free list of keys in insertion
order.  JavaScript truthiness of optional strings (`undefined` and `""` are
falsy) is embedded by explicit `jsTruthyStr` tests.  JSON numbers are
embedded as `Int` (every value the claims exercise is integral; the only
falsy JavaScript number representable in JSON is `0`).
-/

namespace Dchat

/-! SeenTracker (src/seen-tracker.ts)

`seen : Map<string, true>` becomes the list of keys in insertion order
(front = oldest = least recently touched, back = most recent). -/

structure SeenTracker where
  seen : List String
  maxSize : Nat
  deriving DecidableEq, Repr

/-- `new SeenTracker(maxSize)` (TypeScript default argument is 10 000). -/
def SeenTracker.init (maxSize : Nat) : SeenTracker :=
  { seen := [], maxSize }

/-- `hasSeen(id)`: `this.seen.has(id)`. -/
def SeenTracker.hasSeen (t : SeenTracker) (id : String) : Bool :=
  t.seen.contains id

/-- The `while (this.seen.size > this.maxSize)` loop of `evict()`:
delete the first (oldest) key while over capacity. -/
def evictLoop (maxSize : Nat) : List String → List String
  | [] => []
  | x :: xs => if xs.length + 1 > maxSize then evictLoop maxSize xs else x :: xs

/-- `evict()`. -/
def SeenTracker.evict (t : SeenTracker) : SeenTracker :=
  { t with seen := evictLoop t.maxSize t.seen }

/-- `markSeen(id)`: delete-then-set moves an existing key to the back
(most recent); then evict while over capacity. -/
def SeenTracker.markSeen (t : SeenTracker) (id : String) : SeenTracker :=
  let base := if t.seen.contains id then t.seen.erase id else t.seen
  SeenTracker.evict { t with seen := base ++ [id] }

/-- `checkAndMark(id)`: returns true if already seen, otherwise marks. -/
def SeenTracker.checkAndMark (t : SeenTracker) (id : String) : Bool × SeenTracker :=
  if t.seen.contains id then (true, t) else (false, t.markSeen id)

/-- `size` getter. -/
def SeenTracker.size (t : SeenTracker) : Nat :=
  t.seen.length

/-- `clear()`. -/
def SeenTracker.clear (t : SeenTracker) : SeenTracker :=
  { t with seen := [] }

/-- The operations a caller can perform on a tracker (used to quantify over
arbitrary call sequences). -/
inductive SeenOp
  | mark (id : String)
  | check (id : String)
  | clear
  deriving DecidableEq, Repr

/-- Apply one operation to a tracker state. -/
def applySeenOp (t : SeenTracker) : SeenOp → SeenTracker
  | .mark id => t.markSeen id
  | .check id => (t.checkAndMark id).2
  | .clear => t.clear

/-! Basic lemmas about eviction -/

theorem evictLoop_length_le (maxSize : Nat) (l : List String) :
    (evictLoop maxSize l).length ≤ maxSize := by
  induction l with
  | nil => simp [evictLoop]
  | cons x xs ih =>
    simp only [evictLoop]
    split
    · exact ih
    · simp only [List.length_cons]
      omega

theorem evictLoop_of_le (maxSize : Nat) (l : List String) (h : l.length ≤ maxSize) :
    evictLoop maxSize l = l := by
  cases l with
  | nil => rfl
  | cons x xs =>
    simp only [evictLoop]
    rw [if_neg]
    simp only [List.length_cons] at h
    omega

/-- The just-inserted (last) element survives eviction whenever the
capacity is at least one. -/
theorem mem_evictLoop_append_singleton (maxSize : Nat) (hm : 1 ≤ maxSize)
    (l : List String) (id : String) :
    id ∈ evictLoop maxSize (l ++ [id]) := by
  induction l with
  | nil =>
    simp only [List.nil_append, evictLoop]
    rw [if_neg (by simp; omega)]
    simp
  | cons x xs ih =>
    simp only [List.cons_append, evictLoop]
    split
    · exact ih
    · simp

theorem hasSeen_markSeen_self (t : SeenTracker) (id : String) (hm : 1 ≤ t.maxSize) :
    (t.markSeen id).hasSeen id = true := by
  unfold SeenTracker.markSeen SeenTracker.evict SeenTracker.hasSeen
  simp only [List.contains, List.elem_eq_mem, decide_eq_true_eq]
  exact mem_evictLoop_append_singleton t.maxSize hm _ id

/-- One eviction step: a list exactly one over capacity loses exactly its
oldest (front) element. -/
theorem evictLoop_length_succ (maxSize : Nat) (l : List String)
    (h : l.length = maxSize + 1) : evictLoop maxSize l = l.tail := by
  cases l with
  | nil => simp at h
  | cons x xs =>
    simp only [List.length_cons] at h
    simp only [evictLoop]
    rw [if_pos (by omega)]
    exact evictLoop_of_le maxSize xs (by omega)

/-- Marking a fresh id with room to spare appends it without eviction. -/
theorem markSeen_fresh (t : SeenTracker) (id : String) (hid : id ∉ t.seen)
    (hlen : t.seen.length + 1 ≤ t.maxSize) :
    t.markSeen id = { seen := t.seen ++ [id], maxSize := t.maxSize } := by
  unfold SeenTracker.markSeen SeenTracker.evict
  simp only [List.contains, List.elem_eq_mem, decide_eq_true_eq, if_neg hid]
  rw [evictLoop_of_le]
  simp only [List.length_append, List.length_singleton]
  omega

/-- Folding `markSeen` over pairwise-distinct fresh ids that fit within
capacity just appends them in order. -/
theorem foldl_markSeen_fresh (N : Nat) :
    ∀ (L acc : List String), (acc ++ L).Nodup → acc.length + L.length ≤ N →
      L.foldl SeenTracker.markSeen { seen := acc, maxSize := N } =
        { seen := acc ++ L, maxSize := N } := by
  intro L
  induction L with
  | nil => intro acc _ _; simp
  | cons id L ih =>
    intro acc hnd hlen
    have hid : id ∉ acc := fun hmem =>
      (List.nodup_append.mp hnd).2.2 hmem (by simp)
    simp only [List.foldl_cons]
    rw [markSeen_fresh _ _ hid
      (by simp only [List.length_cons] at hlen; show acc.length + 1 ≤ N; omega)]
    have := ih (acc ++ [id]) (by simpa using hnd) (by simp only [List.length_append,
      List.length_singleton, List.length_cons, List.length_nil] at hlen ⊢; omega)
    simpa using this

/-- A single operation keeps the size bound and never changes the capacity
(for `checkAndMark` this needs the bound to hold before the call, since the
already-seen branch leaves the state untouched). -/
theorem applySeenOp_size_le (t : SeenTracker) (op : SeenOp) (h : t.size ≤ t.maxSize) :
    (applySeenOp t op).size ≤ t.maxSize ∧ (applySeenOp t op).maxSize = t.maxSize := by
  cases op with
  | mark id =>
    exact ⟨evictLoop_length_le t.maxSize _, rfl⟩
  | check id =>
    by_cases hc : t.seen.contains id = true
    · simp only [applySeenOp, SeenTracker.checkAndMark, hc, if_true]
      exact ⟨h, trivial⟩
    · simp only [applySeenOp, SeenTracker.checkAndMark, hc, if_false]
      exact ⟨evictLoop_length_le t.maxSize _, rfl⟩
  | clear =>
    exact ⟨Nat.zero_le _, rfl⟩

theorem foldl_applySeenOp_size_le :
    ∀ (ops : List SeenOp) (t : SeenTracker), t.size ≤ t.maxSize →
      (ops.foldl applySeenOp t).size ≤ t.maxSize ∧
        (ops.foldl applySeenOp t).maxSize = t.maxSize := by
  intro ops
  induction ops with
  | nil => exact fun t h => ⟨h, rfl⟩
  | cons op ops ih =>
    intro t h
    have h1 := applySeenOp_size_le t op h
    have h2 := ih (applySeenOp t op) (h1.2 ▸ h1.1)
    exact ⟨h1.2 ▸ h2.1, h1.2 ▸ h2.2⟩

/-! Claim theorems for the dedup tracker -/

/-- Claim C1 (corrected): `checkAndMark(id)` returns whether the id was
already present before the call; when the capacity is at least 1 it also
unconditionally ensures the id is marked afterward, and a call on an
already-present id leaves the state unchanged (so it returns `false`
exactly once per epoch — the first call while the id is absent — and
`true` on every subsequent call before the id is evicted).  The original
claim quantified over *every* tracker state including capacity 0, where a
fresh id is immediately evicted again inside the same call
(see the counterexample theorem). -/
theorem checkAndMark_dedup_gate (t : SeenTracker) (id : String) (hm : 1 ≤ t.maxSize) :
    (t.checkAndMark id).1 = t.hasSeen id ∧
    ((t.checkAndMark id).2).hasSeen id = true ∧
    (t.hasSeen id = true → (t.checkAndMark id).2 = t) := by
  by_cases hmem : id ∈ t.seen
  · have hs : t.hasSeen id = true := by simp [SeenTracker.hasSeen, List.contains, hmem]
    refine ⟨?_, ?_, fun _ => ?_⟩
    · simp [SeenTracker.checkAndMark, hmem, hs]
    · simp [SeenTracker.checkAndMark, SeenTracker.hasSeen, List.contains, hmem]
    · simp [SeenTracker.checkAndMark, hmem]
  · have hs : t.hasSeen id = false := by simp [SeenTracker.hasSeen, List.contains, hmem]
    refine ⟨?_, ?_, fun hc => ?_⟩
    · simp [SeenTracker.checkAndMark, hmem, hs]
    · have hnc : ¬ t.seen.contains id = true := by simp [List.contains, hmem]
      simp only [SeenTracker.checkAndMark, hnc, if_false]
      exact hasSeen_markSeen_self t id hm
    · rw [hs] at hc
      exact absurd hc (by simp)

/-- Witness for `checkAndMark_dedup_gate` at a concrete tracker of
capacity 3. -/
theorem checkAndMark_dedup_gate_witness :
    ((SeenTracker.init 3).checkAndMark "a").1 = (SeenTracker.init 3).hasSeen "a" ∧
    (((SeenTracker.init 3).checkAndMark "a").2).hasSeen "a" = true ∧
    ((SeenTracker.init 3).hasSeen "a" = true →
      ((SeenTracker.init 3).checkAndMark "a").2 = SeenTracker.init 3) :=
  checkAndMark_dedup_gate (SeenTracker.init 3) "a" (by decide)

/-- Claim C1, counterexample to the claim as stated: With capacity 0 (a
legal constructor argument), `checkAndMark` of a fresh id returns `false`
but the id is *not* marked afterward — the eviction loop inside `markSeen`
removes it again before the call returns — contradicting "unconditionally
ensures the id is marked afterward" and making every later call return
`false` again. -/
theorem checkAndMark_capacity_zero_counterexample :
    ((SeenTracker.init 0).checkAndMark "a").1 = false ∧
    (((SeenTracker.init 0).checkAndMark "a").2).hasSeen "a" = false ∧
    ((((SeenTracker.init 0).checkAndMark "a").2).checkAndMark "a").1 = false := by
  decide

/-- Claim C2 (confirmed): Inserting `N + 1` pairwise-distinct ids into a
fresh tracker of capacity `N` evicts exactly the least-recently-touched
(first-inserted) id and leaves the other `N` present in order — the final
key list is the tail of the insertion list.  Concretely: capacity 3,
insert a,b,c,d leaves exactly b,c,d; capacity 3, insert a,b,c, re-insert a
(refreshing its recency), insert d evicts b and leaves c,a,d. -/
theorem markSeen_lru_eviction :
    (∀ (N : Nat) (L : List String), L.Nodup → L.length = N + 1 →
        L.foldl SeenTracker.markSeen (SeenTracker.init N)
          = { seen := L.tail, maxSize := N }) ∧
    ["a", "b", "c", "d"].foldl SeenTracker.markSeen (SeenTracker.init 3)
        = { seen := ["b", "c", "d"], maxSize := 3 } ∧
    ["a", "b", "c", "a", "d"].foldl SeenTracker.markSeen (SeenTracker.init 3)
        = { seen := ["c", "a", "d"], maxSize := 3 } := by
  refine ⟨?_, by decide, by decide⟩
  intro N L hnd hlen
  rcases List.eq_nil_or_concat L with rfl | ⟨L', a, rfl⟩
  · exact absurd hlen (by simp)
  · rw [List.concat_eq_append] at hnd hlen ⊢
    have hlen' : L'.length = N := by
      simp only [List.length_append, List.length_singleton] at hlen; omega
    have hnodup' : L'.Nodup := (List.nodup_append.mp hnd).1
    have ha : a ∉ L' := fun hmem => (List.nodup_append.mp hnd).2.2 hmem (by simp)
    rw [List.foldl_append]
    have h1 := foldl_markSeen_fresh N L' [] (by simpa using hnodup')
      (by simp only [List.length_nil]; omega)
    simp only [List.nil_append] at h1
    simp only [SeenTracker.init]
    rw [h1]
    simp only [List.foldl_cons, List.foldl_nil]
    unfold SeenTracker.markSeen SeenTracker.evict
    simp only [List.contains, List.elem_eq_mem, decide_eq_true_eq, if_neg ha]
    rw [evictLoop_length_succ N (L' ++ [a])
      (by simp only [List.length_append, List.length_singleton]; omega)]

/-- Witness for `markSeen_lru_eviction` at capacity 1. -/
theorem markSeen_lru_eviction_witness :
    ["x", "y"].foldl SeenTracker.markSeen (SeenTracker.init 1)
      = { seen := ["y"], maxSize := 1 } :=
  markSeen_lru_eviction.1 1 ["x", "y"] (by decide) (by decide)

/-- Claim C10 (confirmed): For a tracker constructed with capacity `N`, the
invariant `size ≤ capacity` holds after every sequence of `markSeen`,
`checkAndMark` and `clear` calls over arbitrary string ids (the eviction
loop inside `markSeen` restores the bound before the call returns), and
the capacity itself never changes. -/
theorem seenTracker_size_bounded (N : Nat) (ops : List SeenOp) :
    (ops.foldl applySeenOp (SeenTracker.init N)).size ≤ N ∧
    (ops.foldl applySeenOp (SeenTracker.init N)).maxSize = N :=
  foldl_applySeenOp_size_le ops (SeenTracker.init N) (Nat.zero_le N)

/-! Wire types (src/types.ts) -/

/-- `CONTROL_CONTENT_TYPES` — control content types never forwarded to the
agent. -/
def CONTROL_CONTENT_TYPES : List String :=
  ["receipt", "read", "contact", "contactOptions", "deviceInfo", "deviceRequest",
   "topic:subscribe", "topic:unsubscribe", "privateGroup:invitation",
   "privateGroup:accept", "privateGroup:subscribe", "privateGroup:quit",
   "privateGroup:optionRequest", "privateGroup:optionResponse",
   "privateGroup:memberRequest", "privateGroup:memberResponse",
   "discovery:broadcast"]

/-- `DISPLAYABLE_CONTENT_TYPES` — content types carrying displayable
content. -/
def DISPLAYABLE_CONTENT_TYPES : List String :=
  ["text", "textExtension", "image", "audio", "video", "file", "ipfs"]

/-- `options.fileType` is `number | string` in TypeScript
(0=file, 1=image, 2=audio, 3=video). -/
inductive FileTypeVal
  | num (n : Int)
  | str (s : String)
  deriving DecidableEq, Repr

/-- The fields of `MessageOptions` that the embedded functions read
(`fileType`, `fileName`, `ipfsHash`); the remaining media fields are never
inspected by the codec and do not affect any embedded function. -/
structure MessageOptions where
  fileType : Option FileTypeVal
  fileName : Option String
  ipfsHash : Option String
  deriving DecidableEq, Repr

/-- `MessageData` — the wire envelope. -/
structure MessageData where
  id : String
  contentType : String
  content : Option String
  options : Option MessageOptions
  topic : Option String
  groupId : Option String
  targetID : Option String
  timestamp : Int
  deriving DecidableEq, Repr

/-! Wire codec (src/wire.ts) -/

/-- `isControlMessage(contentType)`. -/
def isControlMessage (ct : String) : Bool :=
  CONTROL_CONTENT_TYPES.contains ct

/-- `isDisplayableMessage(contentType)`. -/
def isDisplayableMessage (ct : String) : Bool :=
  DISPLAYABLE_CONTENT_TYPES.contains ct

/-- JavaScript truthiness of an optional string: `undefined` and `""` are
falsy, every other string is truthy. -/
def jsTruthyStr : Option String → Bool
  | none => false
  | some s => s != ""

inductive ChatType
  | direct
  | group
  deriving DecidableEq, Repr

/-- `InboundMessageResult`. -/
structure InboundMessageResult where
  body : String
  chatType : ChatType
  sessionKey : String
  senderId : String
  senderName : String
  groupSubject : Option String
  ipfsHash : Option String
  ipfsOptions : Option MessageOptions
  deriving DecidableEq, Repr

/-- JavaScript `String.length` counts UTF-16 code units. -/
def utf16Len (s : String) : Nat :=
  s.data.foldl (fun n c => n + (if c.toNat < 0x10000 then 1 else 2)) 0

/-- `src.substring(0, 8)`: the first 8 UTF-16 code units.  (If the cut
falls inside a surrogate pair, JavaScript keeps a lone surrogate, which has
no `Char` counterpart; the model drops the split character instead.  NKN
addresses are ASCII, where both agree.) -/
def utf16TakeAux : Nat → List Char → List Char
  | 0, _ => []
  | _ + 1, [] => []
  | n + 1, c :: cs =>
    if c.toNat < 0x10000 then c :: utf16TakeAux n cs
    else if n = 0 then [] else c :: utf16TakeAux (n - 1) cs

/-- `nknToInbound(src, msg, selfAddress, opts)` — the `accountId` argument
collapses `opts?.accountId` into a single `Option String`. -/
def nknToInbound (src : String) (msg : MessageData) (selfAddress : String)
    (accountId : Option String) : Option InboundMessageResult :=
  if isControlMessage msg.contentType then none
  else if !(isDisplayableMessage msg.contentType) then none
  else
    let hasTopic := jsTruthyStr msg.topic
    let hasGroupId := jsTruthyStr msg.groupId
    let chatType := if hasTopic || hasGroupId then ChatType.group else ChatType.direct
    let sessionKey :=
      if hasTopic then "dchat:topic:" ++ msg.topic.getD ""
      else if hasGroupId then "dchat:group:" ++ msg.groupId.getD ""
      else if jsTruthyStr accountId && accountId.getD "" != "default" then
        "dchat:" ++ accountId.getD "" ++ ":dm:" ++ src
      else "dchat:dm:" ++ src
    let groupSubject :=
      if hasTopic then some ("#" ++ msg.topic.getD "")
      else if hasGroupId then some (msg.groupId.getD "")
      else none
    let ct := msg.contentType
    let body :=
      if ct == "text" || ct == "textExtension" then msg.content.getD ""
      else if ct == "ipfs" then
        let fileType := msg.options.bind MessageOptions.fileType
        if fileType = some (FileTypeVal.num 1) ∨ fileType = some (FileTypeVal.str "1")
            ∨ fileType = none then "[Image]"
        else if fileType = some (FileTypeVal.num 2) ∨ fileType = some (FileTypeVal.str "2")
          then "[Audio]"
        else if fileType = some (FileTypeVal.num 0) ∨ fileType = some (FileTypeVal.str "0")
          then
          let fileName := msg.options.bind MessageOptions.fileName
          if jsTruthyStr fileName then "[File: " ++ fileName.getD "" ++ "]"
          else "[File]"
        else "[IPFS content]"
      else if ct == "audio" then "[Voice Message]"
      else if ct == "image" then "[Image]"
      else if ct == "video" then "[Video]"
      else if ct == "file" then "[File]"
      else msg.content.getD ""
    let senderName :=
      if utf16Len src > 16 then String.mk (utf16TakeAux 8 src.data) ++ "..." else src
    some
      { body := body
        chatType := chatType
        sessionKey := sessionKey
        senderId := src
        senderName := senderName
        groupSubject := groupSubject
        ipfsHash :=
          if jsTruthyStr (msg.options.bind MessageOptions.ipfsHash) then
            msg.options.bind MessageOptions.ipfsHash
          else if ct == "ipfs" then msg.content else none
        ipfsOptions := if ct == "ipfs" || ct == "audio" then msg.options else none }

theorem jsTruthyStr_none : jsTruthyStr none = false := rfl

theorem jsTruthyStr_some (s : String) : jsTruthyStr (some s) = (s != "") := rfl

/-- A displayable content type is never a control content type (the two
concrete lists are disjoint). -/
theorem displayable_not_control (ct : String)
    (h : isDisplayableMessage ct = true) : isControlMessage ct = false := by
  have hmem : ct ∈ DISPLAYABLE_CONTENT_TYPES := by
    unfold isDisplayableMessage at h
    exact List.mem_of_elem_eq_true h
  simp only [DISPLAYABLE_CONTENT_TYPES, List.mem_cons, List.not_mem_nil, or_false] at hmem
  rcases hmem with rfl | rfl | rfl | rfl | rfl | rfl | rfl <;> decide

/-! Claim theorems for nknToInbound -/

/-- Claim C4 (confirmed): for every sender, self address and account id,
`nknToInbound` returns `null` for every envelope whose content type is a
control type, and for every envelope whose content type is not one of the
recognized displayable types. -/
theorem nknToInbound_drops_control_and_unrecognized (src selfAddress : String)
    (msg : MessageData) (accountId : Option String)
    (h : isControlMessage msg.contentType = true ∨
      isDisplayableMessage msg.contentType = false) :
    nknToInbound src msg selfAddress accountId = none := by
  rcases h with h | h
  · simp [nknToInbound, h]
  · by_cases hc : isControlMessage msg.contentType = true
    · simp [nknToInbound, hc]
    · simp [nknToInbound, hc, h]

/-- Witness for `nknToInbound_drops_control_and_unrecognized`: a `receipt`
control envelope and a `piece` (unrecognized) envelope both decode to
`none`. -/
theorem nknToInbound_drops_control_and_unrecognized_witness :
    nknToInbound "alice" ⟨"m1", "receipt", none, none, none, none, none, 0⟩ "self" none
      = none ∧
    nknToInbound "alice" ⟨"m2", "piece", none, none, none, none, none, 0⟩ "self" none
      = none :=
  ⟨nknToInbound_drops_control_and_unrecognized "alice" "self"
      ⟨"m1", "receipt", none, none, none, none, none, 0⟩ none (Or.inl (by decide)),
   nknToInbound_drops_control_and_unrecognized "alice" "self"
      ⟨"m2", "piece", none, none, none, none, none, 0⟩ none (Or.inr (by decide))⟩

/-- Claim C3 (corrected, amended): for a displayable envelope with neither
a (truthy) topic nor a (truthy) groupId, the session key is
`dchat:<accountId>:dm:<src>` when an account id is supplied, **non-empty**
and different from `"default"`, and `dchat:dm:<src>` when the account id is
omitted, empty, or equal to `"default"`.  The original claim omitted the
non-emptiness condition: the code tests JavaScript truthiness
(`acct && acct !== "default"`), so a supplied empty-string account id falls
back to the unscoped key (see the counterexample theorem). -/
theorem nknToInbound_dm_sessionKey (src selfAddress : String) (msg : MessageData)
    (hdisp : isDisplayableMessage msg.contentType = true)
    (htopic : jsTruthyStr msg.topic = false)
    (hgroup : jsTruthyStr msg.groupId = false) :
    (∀ acct : String, acct ≠ "" → acct ≠ "default" →
        Option.map InboundMessageResult.sessionKey
            (nknToInbound src msg selfAddress (some acct))
          = some ("dchat:" ++ acct ++ ":dm:" ++ src)) ∧
    Option.map InboundMessageResult.sessionKey (nknToInbound src msg selfAddress none)
      = some ("dchat:dm:" ++ src) ∧
    Option.map InboundMessageResult.sessionKey
        (nknToInbound src msg selfAddress (some ""))
      = some ("dchat:dm:" ++ src) ∧
    Option.map InboundMessageResult.sessionKey
        (nknToInbound src msg selfAddress (some "default"))
      = some ("dchat:dm:" ++ src) := by
  have hctl := displayable_not_control _ hdisp
  refine ⟨fun acct ha hd => ?_, ?_, ?_, ?_⟩
  · simp [nknToInbound, hctl, hdisp, htopic, hgroup, jsTruthyStr_some, ha, hd]
  · simp [nknToInbound, hctl, hdisp, htopic, hgroup, jsTruthyStr_none]
  · simp [nknToInbound, hctl, hdisp, htopic, hgroup, jsTruthyStr_some]
  · simp [nknToInbound, hctl, hdisp, htopic, hgroup, jsTruthyStr_some]

/-- Witness for `nknToInbound_dm_sessionKey`: the spec's concrete example,
`decodeInbound("peer", msg, self, accountId := "work")` yields session key
`dchat:work:dm:peer`, while account "default" yields `dchat:dm:peer`. -/
theorem nknToInbound_dm_sessionKey_witness :
    Option.map InboundMessageResult.sessionKey
        (nknToInbound "peer" ⟨"m1", "text", some "hi", none, none, none, none, 0⟩
          "self" (some "work"))
      = some ("dchat:" ++ "work" ++ ":dm:" ++ "peer") ∧
    Option.map InboundMessageResult.sessionKey
        (nknToInbound "peer" ⟨"m1", "text", some "hi", none, none, none, none, 0⟩
          "self" (some "default"))
      = some ("dchat:dm:" ++ "peer") :=
  ⟨(nknToInbound_dm_sessionKey "peer" "self" _ (by decide) (by decide) (by decide)).1
      "work" (by decide) (by decide),
   (nknToInbound_dm_sessionKey "peer" "self" _ (by decide) (by decide) (by decide)).2.2.2⟩

/-- Claim C3, counterexample to the claim as stated: the account id `""`
is supplied and differs from `"default"`, yet the session key is the
unscoped `dchat:dm:peer`, not `dchat::dm:peer` as the claim's scoped rule
would require. -/
theorem nknToInbound_empty_account_counterexample :
    Option.map InboundMessageResult.sessionKey
        (nknToInbound "peer" ⟨"m1", "text", some "hi", none, none, none, none, 0⟩
          "self" (some ""))
      = some "dchat:dm:peer" ∧
    ("" : String) ≠ "default" ∧
    ("dchat:dm:peer" : String) ≠ "dchat::dm:peer" := by
  decide

/-- Claim C5 (corrected, amended): for every `ipfs` envelope the decoded
body is `[Image]` when the media subtype (`options.fileType`) marks image
(`1`/`"1"`) or is unspecified; `[Audio]` when it marks audio (`2`/`"2"`);
`[File: <name>]` when it marks file (`0`/`"0"`) and a **non-empty** file
name is present (else `[File]`); and `[IPFS content]` for any other
subtype.  The original claim required only that a file name be *present*:
the code tests JavaScript truthiness (`fileName ? … : …`), so a present but
empty file name yields `[File]`, not `[File: ]` (see the counterexample
theorem). -/
theorem nknToInbound_ipfs_body (src selfAddress : String) (msg : MessageData)
    (accountId : Option String) (h : msg.contentType = "ipfs") :
    Option.map InboundMessageResult.body (nknToInbound src msg selfAddress accountId)
      = some (
        let fileType := msg.options.bind MessageOptions.fileType
        if fileType = some (FileTypeVal.num 1) ∨ fileType = some (FileTypeVal.str "1")
            ∨ fileType = none then "[Image]"
        else if fileType = some (FileTypeVal.num 2) ∨ fileType = some (FileTypeVal.str "2")
          then "[Audio]"
        else if fileType = some (FileTypeVal.num 0) ∨ fileType = some (FileTypeVal.str "0")
          then
            match msg.options.bind MessageOptions.fileName with
            | some n => if n ≠ "" then "[File: " ++ n ++ "]" else "[File]"
            | none => "[File]"
        else "[IPFS content]") := by
  have hctl : isControlMessage msg.contentType = false := by rw [h]; rfl
  have hdisp : isDisplayableMessage msg.contentType = true := by rw [h]; rfl
  simp [nknToInbound, hctl, hdisp, h]
  refine ⟨_, ⟨by decide, by decide, rfl⟩, ?_⟩
  dsimp only
  split_ifs <;> try rfl
  all_goals {
    rcases hfn : msg.options.bind MessageOptions.fileName with _ | nm
    · simp_all [jsTruthyStr_none]
    · by_cases hnm : nm = "" <;> simp_all [jsTruthyStr_some]
  }

/-- Witness for `nknToInbound_ipfs_body`: the spec's end-to-end example —
an `ipfs` envelope with media subtype marking file (0) and file name
`report.pdf` decodes to body exactly `[File: report.pdf]`. -/
theorem nknToInbound_ipfs_body_witness :
    Option.map InboundMessageResult.body
        (nknToInbound "peer"
          ⟨"m1", "ipfs", some "Qm1",
            some ⟨some (FileTypeVal.num 0), some "report.pdf", some "Qm1"⟩,
            none, none, none, 0⟩
          "self" none)
      = some "[File: report.pdf]" := by
  have := nknToInbound_ipfs_body "peer" "self"
    ⟨"m1", "ipfs", some "Qm1",
      some ⟨some (FileTypeVal.num 0), some "report.pdf", some "Qm1"⟩,
      none, none, none, 0⟩
    none rfl
  simpa using this

/-- Claim C5, counterexample to the claim as stated: an `ipfs` envelope
whose media subtype marks file and whose file name is *present* but empty
decodes to `[File]`, not `[File: ]` as the claim's "file name is present"
rule would require. -/
theorem nknToInbound_ipfs_empty_fileName_counterexample :
    Option.map InboundMessageResult.body
        (nknToInbound "peer"
          ⟨"m1", "ipfs", some "Qm1",
            some ⟨some (FileTypeVal.num 0), some "", some "Qm1"⟩,
            none, none, none, 0⟩
          "self" none)
      = some "[File]" ∧
    ("[File]" : String) ≠ "[File: ]" := by
  decide

/-! parseNknPayload (src/wire.ts)

`parseNknPayload` runs `JSON.parse(raw)` inside `try … catch` and then
validates the result.  The embedding works on the outcome of `JSON.parse`:
`none` models a thrown parse error (non-JSON text), `some v` a successfully
parsed JSON value.  The function itself is total — the `catch` branch means
it never throws.  JSON numbers are embedded as `Int` (see the header). -/

inductive Json
  | null
  | bool (b : Bool)
  | num (n : Int)
  | str (s : String)
  | arr (elems : List Json)
  | obj (fields : List (String × Json))

/-- JavaScript truthiness of a possibly-absent JSON value (`!x` test):
`undefined`, `null`, `false`, `0` and `""` are falsy; arrays and objects
are always truthy. -/
def jsTruthyJson : Option Json → Bool
  | none => false
  | some Json.null => false
  | some (Json.bool b) => b
  | some (Json.num n) => n != 0
  | some (Json.str s) => s != ""
  | some (Json.arr _) => true
  | some (Json.obj _) => true

/-- `typeof v === "object"` for a `JSON.parse` result: true for `null`,
arrays and objects. -/
def jsTypeofObject : Json → Bool
  | Json.null => true
  | Json.arr _ => true
  | Json.obj _ => true
  | _ => false

/-- JavaScript property access `v.k`: a string-keyed lookup on objects;
arrays and primitives have no such string key (`undefined` = `none`).
`JSON.parse` output has unique keys, so first-match lookup is faithful. -/
def getProp (v : Json) (k : String) : Option Json :=
  match v with
  | Json.obj fields => fields.lookup k
  | _ => none

/-- `parseNknPayload(raw)`, applied to the outcome of `JSON.parse(raw)`:
`if (!parsed || typeof parsed !== "object") return null;`
`if (!parsed.id || !parsed.contentType) return null;`. -/
def parseNknPayload (parsed? : Option Json) : Option Json :=
  match parsed? with
  | none => none
  | some parsed =>
    if !(jsTruthyJson (some parsed)) || !(jsTypeofObject parsed) then none
    else if !(jsTruthyJson (getProp parsed "id"))
        || !(jsTruthyJson (getProp parsed "contentType")) then none
    else some parsed

/-- Claim C6 (corrected, amended): `parseNknPayload` never throws (it is a
total function returning an option) and returns `null` exactly for:
failed JSON parses (non-JSON text), every non-object top-level value
(`null`, booleans, numbers, strings), arrays (which pass the `typeof`
check but have no `id` property), and objects whose `id` or `contentType`
is absent **or falsy** (`null`, `false`, `0`, `""`); every other input —
an object with truthy `id` and `contentType` — is returned unchanged.
The original claim listed only arrays, numbers and `null` as rejected
top-level values and only *missing* `id`/`contentType` as rejected object
shapes; strings and booleans at top level, and present-but-falsy fields,
are also rejected (see the counterexample theorem). -/
theorem parseNknPayload_null_classification :
    parseNknPayload none = none ∧
    parseNknPayload (some Json.null) = none ∧
    (∀ b, parseNknPayload (some (Json.bool b)) = none) ∧
    (∀ n, parseNknPayload (some (Json.num n)) = none) ∧
    (∀ s, parseNknPayload (some (Json.str s)) = none) ∧
    (∀ elems, parseNknPayload (some (Json.arr elems)) = none) ∧
    (∀ fields, jsTruthyJson (getProp (Json.obj fields) "id") = false →
        parseNknPayload (some (Json.obj fields)) = none) ∧
    (∀ fields, jsTruthyJson (getProp (Json.obj fields) "contentType") = false →
        parseNknPayload (some (Json.obj fields)) = none) ∧
    (∀ fields, jsTruthyJson (getProp (Json.obj fields) "id") = true →
        jsTruthyJson (getProp (Json.obj fields) "contentType") = true →
        parseNknPayload (some (Json.obj fields)) = some (Json.obj fields)) := by
  refine ⟨rfl, rfl, fun b => ?_, fun n => ?_, fun s => ?_, fun elems => rfl,
    fun fields hid => ?_, fun fields hct => ?_, fun fields hid hct => ?_⟩
  · cases b <;> rfl
  · simp [parseNknPayload, jsTruthyJson, jsTypeofObject]
  · simp [parseNknPayload, jsTruthyJson, jsTypeofObject]
  · simp [parseNknPayload, jsTypeofObject, hid,
      show jsTruthyJson (some (Json.obj fields)) = true from rfl]
  · simp [parseNknPayload, jsTypeofObject, hct,
      show jsTruthyJson (some (Json.obj fields)) = true from rfl]
  · simp [parseNknPayload, jsTypeofObject, hid, hct,
      show jsTruthyJson (some (Json.obj fields)) = true from rfl]

/-- Witness for `parseNknPayload_null_classification`: a well-formed
envelope object is returned unchanged, and an object missing `id` is
rejected. -/
theorem parseNknPayload_null_classification_witness :
    parseNknPayload
        (some (Json.obj [("id", Json.str "m1"), ("contentType", Json.str "text")]))
      = some (Json.obj [("id", Json.str "m1"), ("contentType", Json.str "text")]) ∧
    parseNknPayload (some (Json.obj [("contentType", Json.str "text")])) = none :=
  ⟨parseNknPayload_null_classification.2.2.2.2.2.2.2.2
      [("id", Json.str "m1"), ("contentType", Json.str "text")] rfl rfl,
   parseNknPayload_null_classification.2.2.2.2.2.2.1
      [("contentType", Json.str "text")] rfl⟩

/-- Claim C6, counterexample to the claim as stated: an object whose `id`
field is *present* but the empty string is not in the claim's list of
null-producing shapes (its `id` is not missing), so the claim requires the
parsed envelope to be returned — but the code's truthiness test
(`!parsed.id`) rejects it and returns `null`. -/
theorem parseNknPayload_falsy_id_counterexample :
    getProp (Json.obj [("id", Json.str ""), ("contentType", Json.str "text")]) "id"
      = some (Json.str "") ∧
    parseNknPayload
        (some (Json.obj [("id", Json.str ""), ("contentType", Json.str "text")]))
      = none :=
  ⟨rfl, rfl⟩

/-! Session-key extractors (src/wire.ts)

Each extractor is a JavaScript regex match; the embedding compiles the
three concrete regexes.  JavaScript semantics captured here: `.` does not
match a line terminator (`\n`, `\r`, U+2028, U+2029); `$` without the `m`
flag anchors at the very end; `[^:]+` inside `(?:[^:]+:)?` can only match
the maximal colon-free run (a shorter match is followed by a non-colon
character, so the required `:` fails), and when the continuation after the
optional group fails the engine backtracks to its empty alternative. -/

/-- JavaScript line terminators (not matched by `.`). -/
def isJsLineTerm (c : Char) : Bool :=
  c == '\n' || c == '\r' || c == '\u2028' || c == '\u2029'

/-- The regex fragment `(.+)$`: succeeds iff the rest of the input is
nonempty and free of line terminators, capturing all of it. -/
def dotPlusTail (rest : List Char) : Option (List Char) :=
  if rest ≠ [] ∧ rest.all (fun c => !(isJsLineTerm c)) then some rest else none

/-- Match `/^<lit>(.+)$/` against a string. -/
def matchLitThenRest (lit : String) (s : String) : Option String :=
  if lit.data.isPrefixOf s.data then
    (dotPlusTail (s.data.drop lit.data.length)).map String.mk
  else none

/-- `extractTopicFromSessionKey`: `/^dchat:topic:(.+)$/`. -/
def extractTopicFromSessionKey (sessionKey : String) : Option String :=
  matchLitThenRest "dchat:topic:" sessionKey

/-- `extractGroupIdFromSessionKey`: `/^dchat:group:(.+)$/`. -/
def extractGroupIdFromSessionKey (sessionKey : String) : Option String :=
  matchLitThenRest "dchat:group:" sessionKey

/-- The continuation `dm:(.+)$` of the DM regex. -/
def dmTail (r : List Char) : Option (List Char) :=
  if "dm:".data.isPrefixOf r then dotPlusTail (r.drop 3) else none

/-- The greedy optional group `(?:[^:]+:)?` followed by `dm:(.+)$`:
the segment can only be the maximal colon-free run, which must be nonempty
and followed by a colon. -/
def dmViaSegment (r : List Char) : Option (List Char) :=
  let seg := r.takeWhile (fun c => c != ':')
  if seg ≠ [] ∧ seg.length < r.length then dmTail (r.drop (seg.length + 1))
  else none

/-- The DM regex after the literal `dchat:`: first the alternative with
the optional segment, then (on failure) the empty alternative. -/
def dmMatchAfterChannel (r : List Char) : Option String :=
  match dmViaSegment r with
  | some tail => some (String.mk tail)
  | none => (dmTail r).map String.mk

/-- `extractDmAddressFromSessionKey`: `/^dchat:(?:[^:]+:)?dm:(.+)$/`. -/
def extractDmAddressFromSessionKey (sessionKey : String) : Option String :=
  if "dchat:".data.isPrefixOf sessionKey.data then
    dmMatchAfterChannel (sessionKey.data.drop 6)
  else none

/-! Helper lemmas for the regex embedding -/

theorem isPrefixOf_append_self (p l : List Char) : p.isPrefixOf (p ++ l) = true := by
  simp

theorem take_ne_imp_not_isPrefixOf (p l : List Char) (n : Nat) (hn : n ≤ p.length)
    (h : p.take n ≠ l.take n) : p.isPrefixOf l = false := by
  rw [← Bool.not_eq_true, List.isPrefixOf_iff_prefix, List.prefix_iff_eq_take]
  intro he
  apply h
  rw [he, List.take_take, Nat.min_eq_left hn]

theorem matchLitThenRest_append (lit T : String) (hT : T ≠ "")
    (hLT : T.data.all (fun c => !(isJsLineTerm c)) = true) :
    matchLitThenRest lit (lit ++ T) = some T := by
  unfold matchLitThenRest dotPlusTail
  rw [String.data_append, if_pos (isPrefixOf_append_self _ _), List.drop_left]
  rw [if_pos ⟨fun he => hT (String.ext (by simpa using he)), hLT⟩]
  rfl

theorem matchLitThenRest_none (lit s : String)
    (h : lit.data.isPrefixOf s.data = false) : matchLitThenRest lit s = none := by
  unfold matchLitThenRest
  rw [h]
  simp

theorem takeWhile_append_colon (l rest : List Char) (h : ':' ∉ l) :
    (l ++ ':' :: rest).takeWhile (fun c => c != ':') = l := by
  induction l with
  | nil => simp [List.takeWhile_cons]
  | cons x xs ih =>
    have hx : x ≠ ':' := fun he => h (he ▸ List.mem_cons_self x xs)
    have hxs : ':' ∉ xs := fun hm => h (List.mem_cons_of_mem _ hm)
    simp [List.takeWhile_cons, hx, ih hxs]

theorem not_prefix_word_colon (w acct rest : List Char) (hw : ':' ∉ w)
    (hacct : ':' ∉ acct) (hne : acct ≠ w) :
    ¬ ((w ++ [':']) <+: (acct ++ ':' :: rest)) := by
  intro hp
  obtain ⟨t, ht⟩ := hp
  rw [List.append_assoc, List.singleton_append] at ht
  have := congrArg (List.takeWhile (fun c => c != ':')) ht
  rw [takeWhile_append_colon w t hw, takeWhile_append_colon acct rest hacct] at this
  exact hne this.symm

theorem dmTail_append (A : List Char) : dmTail ("dm:".data ++ A) = dotPlusTail A := by
  unfold dmTail
  rw [if_pos (isPrefixOf_append_self _ _),
    show (3 : Nat) = "dm:".data.length from rfl, List.drop_left]

theorem dmTail_not_dm (r : List Char) (h : "dm:".data.isPrefixOf r = false) :
    dmTail r = none := by
  unfold dmTail
  rw [h]
  simp

theorem dmViaSegment_colonfree (acct rest : List Char) (h : ':' ∉ acct)
    (hne : acct ≠ []) : dmViaSegment (acct ++ ':' :: rest) = dmTail rest := by
  unfold dmViaSegment
  simp only [takeWhile_append_colon acct rest h]
  rw [if_pos ⟨hne, by simp⟩]
  congr 1
  rw [show acct ++ ':' :: rest = (acct ++ [':']) ++ rest from by simp,
    List.drop_left' (by simp)]

/-- `dotPlusTail` succeeds on a nonempty line-terminator-free capture. -/
theorem dotPlusTail_pos (A : String) (hA : A ≠ "")
    (hLT : A.data.all (fun c => !(isJsLineTerm c)) = true) :
    dotPlusTail A.data = some A.data := by
  unfold dotPlusTail
  rw [if_pos ⟨fun he => hA (String.ext (by simpa using he)), hLT⟩]

/-- Splitting an account-scoped DM key after the channel tag. -/
theorem scoped_dm_key_data (acct A : String) :
    ("dchat:" ++ acct ++ ":dm:" ++ A).data
      = "dchat:".data ++ (acct.data ++ ':' :: ("dm:".data ++ A.data)) := by
  simp only [String.data_append, List.append_assoc]
  rfl

/-- Claim C7 (corrected, amended): the session-key extractors invert the
key builders, with the qualifications the regexes force.  For identifiers
that are nonempty and free of JavaScript line terminators (the regex `.`
never matches a line terminator, and `(.+)` needs at least one character):
`extractTopicFromSessionKey ("dchat:topic:" ++ T) = some T`,
`extractGroupIdFromSessionKey ("dchat:group:" ++ G) = some G`, and
`extractDmAddressFromSessionKey` returns the address both for the unscoped
key (provided the address does not itself start with `dm:`, which the
greedy optional account segment would swallow) and for the account-scoped
key (provided the account id is nonempty and colon-free).  Each extractor
returns nothing on the other builders' key shapes, provided the embedded
identifier does not start with `dm:` (for the DM extractor) and the
account id is not itself `topic` or `group` (for the topic/group
extractors on scoped DM keys). -/
theorem sessionKey_extractors_invert_builders :
    (∀ T : String, T ≠ "" → T.data.all (fun c => !(isJsLineTerm c)) = true →
        extractTopicFromSessionKey ("dchat:topic:" ++ T) = some T) ∧
    (∀ G : String, G ≠ "" → G.data.all (fun c => !(isJsLineTerm c)) = true →
        extractGroupIdFromSessionKey ("dchat:group:" ++ G) = some G) ∧
    (∀ A : String, A ≠ "" → A.data.all (fun c => !(isJsLineTerm c)) = true →
        "dm:".data.isPrefixOf A.data = false →
        extractDmAddressFromSessionKey ("dchat:dm:" ++ A) = some A) ∧
    (∀ acct A : String, acct ≠ "" → ':' ∉ acct.data →
        A ≠ "" → A.data.all (fun c => !(isJsLineTerm c)) = true →
        extractDmAddressFromSessionKey ("dchat:" ++ acct ++ ":dm:" ++ A) = some A) ∧
    (∀ T : String, extractGroupIdFromSessionKey ("dchat:topic:" ++ T) = none ∧
        extractTopicFromSessionKey ("dchat:group:" ++ T) = none) ∧
    (∀ A : String, extractTopicFromSessionKey ("dchat:dm:" ++ A) = none ∧
        extractGroupIdFromSessionKey ("dchat:dm:" ++ A) = none) ∧
    (∀ T : String, "dm:".data.isPrefixOf T.data = false →
        extractDmAddressFromSessionKey ("dchat:topic:" ++ T) = none ∧
        extractDmAddressFromSessionKey ("dchat:group:" ++ T) = none) ∧
    (∀ acct A : String, acct ≠ "topic" → acct ≠ "group" → ':' ∉ acct.data →
        extractTopicFromSessionKey ("dchat:" ++ acct ++ ":dm:" ++ A) = none ∧
        extractGroupIdFromSessionKey ("dchat:" ++ acct ++ ":dm:" ++ A) = none) := by
  refine ⟨fun T hT hLT => matchLitThenRest_append _ _ hT hLT,
    fun G hG hLT => matchLitThenRest_append _ _ hG hLT,
    fun A hA hLT hdm => ?_, fun acct A hacct hcol hA hLT => ?_,
    fun T => ⟨?_, ?_⟩, fun A => ⟨?_, ?_⟩, fun T hdm => ⟨?_, ?_⟩,
    fun acct A hat hag hcol => ⟨?_, ?_⟩⟩
  · -- unscoped DM key
    unfold extractDmAddressFromSessionKey
    rw [show ("dchat:dm:" ++ A).data
        = "dchat:".data ++ (['d', 'm'] ++ ':' :: A.data) from by
      simp only [String.data_append]; rfl]
    rw [if_pos (isPrefixOf_append_self _ _),
      show (6 : Nat) = "dchat:".data.length from rfl, List.drop_left]
    unfold dmMatchAfterChannel
    rw [dmViaSegment_colonfree ['d', 'm'] A.data (by decide) (by decide),
      dmTail_not_dm A.data hdm,
      show (['d', 'm'] ++ ':' :: A.data) = "dm:".data ++ A.data from rfl,
      dmTail_append, dotPlusTail_pos A hA hLT]
    rfl
  · -- account-scoped DM key
    unfold extractDmAddressFromSessionKey
    rw [scoped_dm_key_data]
    rw [if_pos (isPrefixOf_append_self _ _),
      show (6 : Nat) = "dchat:".data.length from rfl, List.drop_left]
    unfold dmMatchAfterChannel
    rw [dmViaSegment_colonfree acct.data _ hcol
        (fun he => hacct (String.ext (by simpa using he))),
      dmTail_append, dotPlusTail_pos A hA hLT]
  · -- group extractor on a topic key
    apply matchLitThenRest_none
    apply take_ne_imp_not_isPrefixOf _ _ 7 (by decide)
    rw [String.data_append, List.take_append_eq_append_take,
      show (7 - ("dchat:topic:").data.length) = 0 from rfl, List.take_zero,
      List.append_nil]
    decide
  · -- topic extractor on a group key
    apply matchLitThenRest_none
    apply take_ne_imp_not_isPrefixOf _ _ 7 (by decide)
    rw [String.data_append, List.take_append_eq_append_take,
      show (7 - ("dchat:group:").data.length) = 0 from rfl, List.take_zero,
      List.append_nil]
    decide
  · -- topic extractor on an unscoped DM key
    apply matchLitThenRest_none
    apply take_ne_imp_not_isPrefixOf _ _ 7 (by decide)
    rw [String.data_append, List.take_append_eq_append_take,
      show (7 - ("dchat:dm:").data.length) = 0 from rfl, List.take_zero,
      List.append_nil]
    decide
  · -- group extractor on an unscoped DM key
    apply matchLitThenRest_none
    apply take_ne_imp_not_isPrefixOf _ _ 7 (by decide)
    rw [String.data_append, List.take_append_eq_append_take,
      show (7 - ("dchat:dm:").data.length) = 0 from rfl, List.take_zero,
      List.append_nil]
    decide
  · -- DM extractor on a topic key
    unfold extractDmAddressFromSessionKey
    rw [show ("dchat:topic:" ++ T).data
        = "dchat:".data ++ ("topic".data ++ ':' :: T.data) from by
      simp only [String.data_append]; rfl]
    rw [if_pos (isPrefixOf_append_self _ _),
      show (6 : Nat) = "dchat:".data.length from rfl, List.drop_left]
    unfold dmMatchAfterChannel
    rw [dmViaSegment_colonfree "topic".data T.data (by decide) (by decide),
      dmTail_not_dm T.data hdm,
      dmTail_not_dm ("topic".data ++ ':' :: T.data)
        (take_ne_imp_not_isPrefixOf _ _ 2 (by decide)
          (by rw [List.take_append_eq_append_take,
                show (2 - ("topic").data.length) = 0 from rfl, List.take_zero,
                List.append_nil]
              decide))]
    rfl
  · -- DM extractor on a group key
    unfold extractDmAddressFromSessionKey
    rw [show ("dchat:group:" ++ T).data
        = "dchat:".data ++ ("group".data ++ ':' :: T.data) from by
      simp only [String.data_append]; rfl]
    rw [if_pos (isPrefixOf_append_self _ _),
      show (6 : Nat) = "dchat:".data.length from rfl, List.drop_left]
    unfold dmMatchAfterChannel
    rw [dmViaSegment_colonfree "group".data T.data (by decide) (by decide),
      dmTail_not_dm T.data hdm,
      dmTail_not_dm ("group".data ++ ':' :: T.data)
        (take_ne_imp_not_isPrefixOf _ _ 2 (by decide)
          (by rw [List.take_append_eq_append_take,
                show (2 - ("group").data.length) = 0 from rfl, List.take_zero,
                List.append_nil]
              decide))]
    rfl
  · -- topic extractor on a scoped DM key
    apply matchLitThenRest_none
    rw [← Bool.not_eq_true, List.isPrefixOf_iff_prefix]
    rw [scoped_dm_key_data,
      show ("dchat:topic:").data = "dchat:".data ++ ("topic".data ++ [':']) from rfl,
      List.prefix_append_right_inj]
    exact not_prefix_word_colon "topic".data acct.data _ (by decide) hcol
      (fun he => hat (String.ext (by simpa using he)))
  · -- group extractor on a scoped DM key
    apply matchLitThenRest_none
    rw [← Bool.not_eq_true, List.isPrefixOf_iff_prefix]
    rw [scoped_dm_key_data,
      show ("dchat:group:").data = "dchat:".data ++ ("group".data ++ [':']) from rfl,
      List.prefix_append_right_inj]
    exact not_prefix_word_colon "group".data acct.data _ (by decide) hcol
      (fun he => hag (String.ext (by simpa using he)))

/-- Witness for `sessionKey_extractors_invert_builders` at concrete keys. -/
theorem sessionKey_extractors_invert_builders_witness :
    extractTopicFromSessionKey ("dchat:topic:" ++ "general") = some "general" ∧
    extractDmAddressFromSessionKey ("dchat:" ++ "work" ++ ":dm:" ++ "peer")
      = some "peer" :=
  ⟨sessionKey_extractors_invert_builders.1 "general" (by decide) (by decide),
   sessionKey_extractors_invert_builders.2.2.2.1 "work" "peer" (by decide)
     (by decide) (by decide) (by decide)⟩

/-- Claim C7, counterexample to the claim as stated: the claim quantifies
over *every* topic name, but for the empty topic name the built key is
`dchat:topic:` and the regex `(.+)` requires at least one character, so the
extractor returns nothing instead of the empty topic name.  (The greedy
optional segment causes a second failure of the unqualified claim:
`extractDmAddressFromSessionKey ("dchat:dm:" ++ "dm:x") = some "x"`, not
`some "dm:x"`.) -/
theorem extractTopic_empty_counterexample :
    ("dchat:topic:" ++ "" : String) = "dchat:topic:" ∧
    extractTopicFromSessionKey "dchat:topic:" = none ∧
    extractDmAddressFromSessionKey ("dchat:dm:" ++ "dm:x") = some "x" := by
  refine ⟨rfl, rfl, ?_⟩
  rfl

/-! genTopicHash (src/wire.ts)

`genTopicHash` strips leading `#` characters, hashes the cleaned name with
SHA-1 (Node `crypto.createHash("sha1")`, fed the UTF-8 encoding of the
string), hex-encodes the digest and prepends the channel tag `dchat`.
SHA-1 is implemented below per FIPS 180-4 over byte lists, with 32-bit
words as `Nat` reduced modulo `2^32`. -/

/-- UTF-8 encoding of one scalar value. -/
def utf8EncodeChar (c : Char) : List Nat :=
  let n := c.toNat
  if n < 0x80 then [n]
  else if n < 0x800 then [0xC0 + n / 64, 0x80 + n % 64]
  else if n < 0x10000 then [0xE0 + n / 4096, 0x80 + n / 64 % 64, 0x80 + n % 64]
  else [0xF0 + n / 262144, 0x80 + n / 4096 % 64, 0x80 + n / 64 % 64, 0x80 + n % 64]

/-- The UTF-8 bytes of a string (what `hash.update(str)` consumes). -/
def utf8Bytes (s : String) : List Nat :=
  s.data.foldr (fun c acc => utf8EncodeChar c ++ acc) []

/-- Rotate a 32-bit word left by `k`. -/
def rotl (k x : Nat) : Nat :=
  ((x <<< k) % 4294967296) ||| (x >>> (32 - k))

/-- SHA-1 round constants. -/
def sha1K (i : Nat) : Nat :=
  if i < 20 then 0x5A827999 else if i < 40 then 0x6ED9EBA1
  else if i < 60 then 0x8F1BBCDC else 0xCA62C1D6

/-- SHA-1 round functions (bitwise complement is xor with `2^32 - 1`). -/
def sha1F (i b c d : Nat) : Nat :=
  if i < 20 then (b &&& c) ||| ((b ^^^ 4294967295) &&& d)
  else if i < 40 then b ^^^ c ^^^ d
  else if i < 60 then (b &&& c) ||| (b &&& d) ||| (c &&& d)
  else b ^^^ c ^^^ d

/-- Merkle–Damgård padding: `0x80`, zeros to 56 mod 64, 64-bit big-endian
bit length. -/
def sha1Pad (msg : List Nat) : List Nat :=
  let len := msg.length
  let zeros := (119 - len % 64) % 64
  let bits := len * 8
  msg ++ [0x80] ++ List.replicate zeros 0 ++
    [bits >>> 56 &&& 255, bits >>> 48 &&& 255, bits >>> 40 &&& 255,
     bits >>> 32 &&& 255, bits >>> 24 &&& 255, bits >>> 16 &&& 255,
     bits >>> 8 &&& 255, bits &&& 255]

/-- Big-endian 32-bit words from bytes. -/
def bytesToWords : List Nat → List Nat
  | a :: b :: c :: d :: rest => (a * 16777216 + b * 65536 + c * 256 + d) :: bytesToWords rest
  | _ => []

/-- Message-schedule extension: append `rotl 1 (w[i-3] ^ w[i-8] ^ w[i-14]
^ w[i-16])` the given number of times. -/
def sha1Extend : Nat → List Nat → List Nat
  | 0, ws => ws
  | n + 1, ws =>
    let i := ws.length
    let w := rotl 1 ((ws.getD (i - 3) 0) ^^^ (ws.getD (i - 8) 0) ^^^
      (ws.getD (i - 14) 0) ^^^ (ws.getD (i - 16) 0))
    sha1Extend n (ws ++ [w])

/-- The 80 compression rounds (round index is `80 - fuel`). -/
def sha1Rounds (ws : List Nat) :
    Nat → Nat × Nat × Nat × Nat × Nat → Nat × Nat × Nat × Nat × Nat
  | 0, st => st
  | n + 1, st =>
    let i := 80 - (n + 1)
    let temp := (rotl 5 st.1 + sha1F i st.2.1 st.2.2.1 st.2.2.2.1 + st.2.2.2.2
      + sha1K i + ws.getD i 0) % 4294967296
    sha1Rounds ws n (temp, st.1, rotl 30 st.2.1, st.2.2.1, st.2.2.2.1)

/-- Compress one 64-byte block into the chaining state. -/
def sha1Block (h : Nat × Nat × Nat × Nat × Nat) (block : List Nat) :
    Nat × Nat × Nat × Nat × Nat :=
  let st := sha1Rounds (sha1Extend 64 (bytesToWords block)) 80 h
  ((h.1 + st.1) % 4294967296, (h.2.1 + st.2.1) % 4294967296,
   (h.2.2.1 + st.2.2.1) % 4294967296, (h.2.2.2.1 + st.2.2.2.1) % 4294967296,
   (h.2.2.2.2 + st.2.2.2.2) % 4294967296)

/-- Fold the compression over all 64-byte blocks (fuel-indexed; the fuel
is instantiated with the padded length, an upper bound on the number of
blocks). -/
def sha1Blocks : Nat → Nat × Nat × Nat × Nat × Nat → List Nat →
    Nat × Nat × Nat × Nat × Nat
  | 0, h, _ => h
  | _ + 1, h, [] => h
  | fuel + 1, h, bytes => sha1Blocks fuel (sha1Block h (bytes.take 64)) (bytes.drop 64)

/-- Big-endian bytes of a 32-bit word. -/
def wordBytes (w : Nat) : List Nat :=
  [w >>> 24 &&& 255, w >>> 16 &&& 255, w >>> 8 &&& 255, w &&& 255]

/-- The 20-byte SHA-1 digest of a byte list. -/
def sha1Digest (msg : List Nat) : List Nat :=
  let padded := sha1Pad msg
  let h := sha1Blocks padded.length
    (0x67452301, 0xEFCDAB89, 0x98BADCFE, 0x10325476, 0xC3D2E1F0) padded
  wordBytes h.1 ++ wordBytes h.2.1 ++ wordBytes h.2.2.1 ++ wordBytes h.2.2.2.1 ++
    wordBytes h.2.2.2.2

/-- Lowercase hex digit. -/
def hexDigit (n : Nat) : Char :=
  if n < 10 then Char.ofNat (48 + n) else Char.ofNat (87 + n)

/-- Lowercase hex encoding of the digest (`digest("hex")`). -/
def sha1Hex (msg : List Nat) : String :=
  String.mk ((sha1Digest msg).foldr
    (fun b acc => hexDigit (b / 16) :: hexDigit (b % 16) :: acc) [])

/-- `genTopicHash(topicName)`: `topicName.replace(/^#+/, "")`, SHA-1,
hex, `"dchat"` tag. -/
def genTopicHash (topicName : String) : String :=
  let cleaned := String.mk (topicName.data.dropWhile (fun c => c == '#'))
  "dchat" ++ sha1Hex (utf8Bytes cleaned)

/-- Stripping one more leading `#` does not change the hash. -/
theorem genTopicHash_strip_one (t : String) :
    genTopicHash ("#" ++ t) = genTopicHash t := by
  have hdw : ("#" ++ t).data.dropWhile (fun c => c == '#')
      = t.data.dropWhile (fun c => c == '#') := by
    rw [String.data_append]
    rfl
  simp only [genTopicHash, hdw]

set_option maxRecDepth 100000 in
/-- Claim C9 (confirmed): `genTopicHash` is deterministic (equal topic
names give equal hashes — it is a pure function of the name), strips all
leading `#` characters before hashing, so adding a leading `#` never
changes the hash and `genTopicHash "general" = genTopicHash "#general" =
genTopicHash "##general"`, while the distinct cleaned names `alpha` and
`beta` hash differently. -/
theorem genTopicHash_deterministic_strips_hash :
    (∀ t₁ t₂ : String, t₁ = t₂ → genTopicHash t₁ = genTopicHash t₂) ∧
    (∀ t : String, genTopicHash ("#" ++ t) = genTopicHash t) ∧
    genTopicHash "general" = genTopicHash "#general" ∧
    genTopicHash "#general" = genTopicHash "##general" ∧
    genTopicHash "alpha" ≠ genTopicHash "beta" := by
  refine ⟨fun t₁ t₂ h => congrArg genTopicHash h, genTopicHash_strip_one, ?_, ?_, ?_⟩
  · rw [show ("#general" : String) = "#" ++ "general" from rfl,
      genTopicHash_strip_one]
  · rw [show ("##general" : String) = "#" ++ "#general" from rfl,
      genTopicHash_strip_one]
  · decide

/-- Witness for `genTopicHash_deterministic_strips_hash` (determinism
instance at a concrete name). -/
theorem genTopicHash_deterministic_witness :
    genTopicHash "general" = genTopicHash "general" :=
  genTopicHash_deterministic_strips_hash.1 "general" "general" rfl

/-! NknBus.connect (src/nkn-bus.ts)

`connect` is async; its control flow is linearized into explicit state
passing.  The relay client is abstracted to the effects the bus requests
from it (client creation/close, the 30-second timer, awaiting the one-shot
`onConnect` notification, registering the message handler); a
`ConnectOutcome` parameter stands for which of the three completion
sources of the connect promise fires first when the promise is actually
awaited. -/

inductive NknConnectionState
  | disconnected
  | connecting
  | connected
  deriving DecidableEq, Repr

/-- The mutable fields of `NknBus` that `connect`/`disconnect` touch. -/
structure BusState where
  state : NknConnectionState
  client : Bool
  address : Option String
  reconnectTimer : Bool
  seed : Option String
  numSubClients : Nat
  deriving DecidableEq, Repr

/-- Externally visible requests the bus makes of its environment. -/
inductive BusEffect
  | closeClient
  | createClient
  | startConnectTimer
  | clearConnectTimer
  | awaitConnectedNotification
  | registerMessageHandler
  deriving DecidableEq, Repr

/-- How the connect promise would resolve if awaited: the `onConnect`
notification (with the assigned address), the 30-second timeout, or a
cancellation that fires during the wait. -/
inductive ConnectOutcome
  | connected (addr : String)
  | timeout
  | abortedLater
  deriving DecidableEq, Repr

/-- `disconnect()`: clear the reconnect timer, close and drop the client
(swallowing close errors), clear the address, set state `disconnected`. -/
def disconnectRun (b : BusState) : BusState × List BusEffect :=
  ({ state := NknConnectionState.disconnected, client := false, address := none,
     reconnectTimer := false, seed := b.seed, numSubClients := b.numSubClients },
   if b.client then [BusEffect.closeClient] else [])

/-- `connect(opts, abortSignal)`: tear down an existing client, set state
`connecting`, create the relay client, start the 30-second timer, and —
before registering for the `onConnect` notification — check
`abortSignal?.aborted`; if it has already fired, clear the timer and
reject with `Aborted`.  The `catch` block restores `disconnected`, closes
and drops the client, and rethrows. -/
def connectRun (b : BusState) (seed : String) (numSubClients : Nat)
    (abortedAtStart : Bool) (outcome : ConnectOutcome) :
    Except String String × BusState × List BusEffect :=
  let step0 := if b.client then disconnectRun b else (b, [])
  let b0 := { step0.1 with seed := some seed }
  let b1 := { b0 with numSubClients := numSubClients }
  let b2 := { b1 with state := NknConnectionState.connecting, client := true }
  let trace := step0.2 ++ [BusEffect.createClient, BusEffect.startConnectTimer]
  if abortedAtStart then
    (Except.error "Aborted",
     { b2 with state := NknConnectionState.disconnected, client := false },
     trace ++ [BusEffect.clearConnectTimer, BusEffect.closeClient])
  else
    match outcome with
    | ConnectOutcome.connected addr =>
      (Except.ok addr,
       { b2 with state := NknConnectionState.connected, address := some addr },
       trace ++ [BusEffect.awaitConnectedNotification, BusEffect.clearConnectTimer,
         BusEffect.registerMessageHandler])
    | ConnectOutcome.timeout =>
      (Except.error "NKN connection timeout after 30s",
       { b2 with state := NknConnectionState.disconnected, client := false },
       trace ++ [BusEffect.awaitConnectedNotification, BusEffect.closeClient])
    | ConnectOutcome.abortedLater =>
      (Except.error "Aborted",
       { b2 with state := NknConnectionState.disconnected, client := false },
       trace ++ [BusEffect.awaitConnectedNotification, BusEffect.clearConnectTimer,
         BusEffect.closeClient])

/-- Claim C8 (confirmed): if the cancellation signal has already fired
when `connect` is called, the operation fails immediately with `Aborted`
— independently of how the relay connection would have gone — and on
this failure the bus state is `disconnected` with no retained client.
"Without attempting a network handshake" is read as: the bus never awaits
the relay's one-shot connected notification and never registers the
inbound message handler (the freshly constructed client object is closed
and dropped at once). -/
theorem connect_aborted_fails_disconnected (b : BusState) (seed : String)
    (n : Nat) (outcome outcome' : ConnectOutcome) :
    (connectRun b seed n true outcome).1 = Except.error "Aborted" ∧
    (connectRun b seed n true outcome).2.1.state = NknConnectionState.disconnected ∧
    (connectRun b seed n true outcome).2.1.client = false ∧
    BusEffect.awaitConnectedNotification ∉ (connectRun b seed n true outcome).2.2 ∧
    BusEffect.registerMessageHandler ∉ (connectRun b seed n true outcome).2.2 ∧
    connectRun b seed n true outcome = connectRun b seed n true outcome' := by
  by_cases hb : b.client = true <;>
    simp [connectRun, disconnectRun, hb]

end Dchat
